import Mathlib

/-!
Verification of the affine-group factory (`sage/groups/affine_gps/affine_group.py`)
and the class-pickling demonstration (`sage/misc/test_class_pickling.py`).

The affine group `Aff(n, F)` consists of pairs `(A, b)` with `A` an invertible
`n × n` matrix and `b` a vector, representing the map `x ↦ A·x + b`.  We embed
the element constructors (`linear`, `translation`, `reflection`,
`random_element`, `_an_element_`), the membership check
(`_element_constructor_check`), and the construction-argument normalization
(`__classcall__`).  The base ring is taken to be a field `F` with decidable
equality, over which the external `is_invertible` test used by the source is
the decidable test `det ≠ 0`.  Python exceptions are rendered as `Except`
values carrying a `SageError`.
-/

namespace AffineGps

/-- Python exceptions raised by the embedded code: `TypeError` and
`ValueError`, with their message strings. -/
inductive SageError where
  | typeError (msg : String)
  | valueError (msg : String)
  deriving DecidableEq, Repr

instance {ε α : Type} [DecidableEq ε] [DecidableEq α] :
    DecidableEq (Except ε α) := fun a b =>
  match a, b with
  | Except.ok x, Except.ok y =>
    match decEq x y with
    | isTrue h => isTrue (by rw [h])
    | isFalse h => isFalse (fun hh => h (by injection hh))
  | Except.error x, Except.error y =>
    match decEq x y with
    | isTrue h => isTrue (by rw [h])
    | isFalse h => isFalse (fun hh => h (by injection hh))
  | Except.ok _, Except.error _ => isFalse (fun hh => Except.noConfusion hh)
  | Except.error _, Except.ok _ => isFalse (fun hh => Except.noConfusion hh)

instance : Fact (Nat.Prime 5) := ⟨by norm_num⟩

variable {n : ℕ} {F : Type} [Field F] [DecidableEq F]

/-- An element `(A, b)` of the affine group, representing `x ↦ A·x + b`.
Mirrors the data carried by `AffineGroupElement` (fields `_A`, `_b`). -/
structure AffineGroupElement (n : ℕ) (F : Type) [Field F] where
  A : Matrix (Fin n) (Fin n) F
  b : Fin n → F

instance : DecidableEq (AffineGroupElement n F) := fun g h =>
  decidable_of_iff (g.A = h.A ∧ g.b = h.b)
    (by cases g; cases h; simp)

/-- Modelled from the spec: the element multiplication of
`sage/groups/affine_gps/group_element.py` is not among the sources; the spec
defines composition through the homogeneous block-matrix representation
`[[A, b], [0, 1]]`, under which
`(A1, b1) * (A2, b2) = (A1*A2, A1·b2 + b1)`. -/
def mulElem (g h : AffineGroupElement n F) : AffineGroupElement n F :=
  ⟨g.A * h.A, g.A.mulVec h.b + g.b⟩

instance : Mul (AffineGroupElement n F) := ⟨mulElem⟩

/-- Modelled from the spec: the identity element supplied by the external
group framework is `(I, 0)`, the identity map `x ↦ x`. -/
def oneElem : AffineGroupElement n F := ⟨1, 0⟩

/-- `AffineGroup._element_constructor_check`: raises `TypeError` unless `A`
is invertible.  Over the field `F` the external `A.is_invertible()` test is
`A.det ≠ 0`. -/
def elementConstructorCheck (A : Matrix (Fin n) (Fin n) F) :
    Except SageError Unit :=
  if A.det ≠ 0 then Except.ok ()
  else Except.error (SageError.typeError "A must be invertible")

/-- Modelled from the spec: `AffineGroupElement.__init__` (from the missing
`group_element.py`) with `check=True` runs the parent group's
`_element_constructor_check` before storing the pair `(A, b)`. -/
def elementClassChecked (A : Matrix (Fin n) (Fin n) F) (b : Fin n → F) :
    Except SageError (AffineGroupElement n F) :=
  match elementConstructorCheck A with
  | Except.ok _ => Except.ok ⟨A, b⟩
  | Except.error e => Except.error e

/-- `AffineGroup.linear`: the element `x ↦ A·x` with zero translation part,
built with `check=True`. -/
def linear (A : Matrix (Fin n) (Fin n) F) :
    Except SageError (AffineGroupElement n F) :=
  elementClassChecked A 0

/-- `AffineGroup.translation`: the element `x ↦ x + b`, built from the
identity matrix with `check=False` (no validation). -/
def translation (b : Fin n → F) : AffineGroupElement n F :=
  ⟨1, b⟩

/-- The matrix built inside `reflection`:
`self.matrix_space().one() - v.column() * (v.row() * two_norm2inv)` where
`two_norm2inv = self.base_ring()(2) / sum([vi**2 for vi in v])`, so the
`(i, j)` entry is `1 i j - v i * (v j * (2 / Σ vₖ²))`. -/
def householder (v : Fin n → F) : Matrix (Fin n) (Fin n) F :=
  1 - Matrix.vecMulVec v (fun j => v j * (2 / ∑ i, v i ^ 2))

/-- The Householder matrix as the spec writes it:
`A = I − 2·(v·vᵗ)/(v·v)`, stated independently of the source translation
`householder` so the two can be compared. -/
def householderSpec (v : Fin n → F) : Matrix (Fin n) (Fin n) F :=
  1 - (2 / Matrix.dotProduct v v) • Matrix.vecMulVec v v

/-- `AffineGroup.reflection`: computes `two_norm2inv = 2 / Σ vᵢ²`, turning
the `ZeroDivisionError` raised on a zero sum into
`ValueError('v has norm zero')`, then builds the `householder` matrix and
constructs the element with `check=True` and zero translation part. -/
def reflection (v : Fin n → F) :
    Except SageError (AffineGroupElement n F) :=
  if (∑ i, v i ^ 2) = 0 then
    Except.error (SageError.valueError "v has norm zero")
  else elementClassChecked (householder v) 0

/-- `AffineGroup.random_element`: draws matrices from the external random
source until one is invertible, then pairs it with a random vector and builds
the element with `check=False`.  The external sampler (the initial
`random_element` draw followed by the successive `randomize()` mutations) is
modelled as an oracle stream `coins`; the `while not A.is_invertible()` loop
returns the first invertible matrix in the stream, so termination requires
the stream to contain one. -/
def randomElement (coins : ℕ → Matrix (Fin n) (Fin n) F) (bcoin : Fin n → F)
    (h : ∃ k, (coins k).det ≠ 0) : AffineGroupElement n F :=
  ⟨coins (Nat.find h), bcoin⟩

/-- The candidate stream inspected by `_an_element_`: the matrix space's
`an_element()` first, then the successive `randomize()` redraws. -/
def candidates (a0 : Matrix (Fin n) (Fin n) F)
    (coins : ℕ → Matrix (Fin n) (Fin n) F) : ℕ → Matrix (Fin n) (Fin n) F
  | 0 => a0
  | k + 1 => coins k

/-- `AffineGroup._an_element_`: starts from the matrix space's generic
`an_element()` and applies the same randomize-until-invertible loop as
`random_element`, pairing the result with the vector space's `an_element()`
and building with `check=False`. -/
def anElement (a0 : Matrix (Fin n) (Fin n) F)
    (coins : ℕ → Matrix (Fin n) (Fin n) F) (bv : Fin n → F)
    (h : ∃ k, (candidates a0 coins k).det ≠ 0) : AffineGroupElement n F :=
  ⟨candidates a0 coins (Nat.find h), bv⟩

/-! ### Construction and canonicalization (`__classcall__` / `__init__`) -/

/-- The base rings appearing in construction arguments.  `GFq q var` stands
for the finite field of order `q` with generator name `var` (distinct
generator names give distinct parents). -/
inductive SageRing where
  | QQ
  | ZZ
  | GFq (q : ℕ) (var : String)
  deriving DecidableEq, Repr

/-- The `ring` construction argument as received: an actual ring, a Sage
integer (for which `is_Integer` is true), or some other object that is
neither. -/
inductive RingArg where
  | ring (r : SageRing)
  | int (q : ℤ)
  | other (tag : String)
  deriving DecidableEq, Repr

/-- The canonical key of an affine group: the pair `(degree, ring)` passed to
the canonicalizing constructor.  The degree is whatever object the caller
supplied (integers, including negative ones, are stored unchecked). -/
structure GroupKey where
  degree : ℤ
  ring : SageRing
  deriving DecidableEq, Repr

/-- The argument shapes accepted by `AffineGroup.__classcall__`: an affine
space (which exposes `dimension_relative`), a plain vector space (only
`dimension`), an existing `AffineGroup`, or a `(degree, ring)` pair. -/
inductive AffArg where
  | affineSpace (dim : ℤ) (r : SageRing)
  | vectorSpace (dim : ℤ) (r : SageRing)
  | group (k : GroupKey)
  | pair (degree : ℤ) (ringArg : RingArg)
  deriving DecidableEq, Repr

/-- Modelled from the spec: the external `FiniteField` constructor turns a
prime-power order into the corresponding finite field and raises a
`ValueError` otherwise. -/
def finiteField (q : ℤ) (var : String) : Except SageError SageRing :=
  if 0 < q ∧ IsPrimePow q.toNat then Except.ok (SageRing.GFq q.toNat var)
  else Except.error
    (SageError.valueError "the order of a finite field must be a prime power")

/-- `AffineGroup.__classcall__`: normalizes the argument to a
`(degree, ring)` pair.  A space contributes its dimension and base ring; an
existing group is passed through; in a `(degree, ring)` pair an integer ring
is replaced by `FiniteField(ring, var)` where `var` is the keyword argument
(Sage's default is `'a'`).  The degree is never inspected. -/
def classcall (a : AffArg) (var : String) :
    Except SageError (ℤ × RingArg) :=
  match a with
  | AffArg.affineSpace d r => Except.ok (d, RingArg.ring r)
  | AffArg.vectorSpace d r => Except.ok (d, RingArg.ring r)
  | AffArg.group k => Except.ok (k.degree, RingArg.ring k.ring)
  | AffArg.pair d ra =>
    match ra with
    | RingArg.int q =>
      match finiteField q var with
      | Except.ok r => Except.ok (d, RingArg.ring r)
      | Except.error e => Except.error e
    | ra => Except.ok (d, ra)

/-- Modelled from the spec: `AffineGroup.__init__` stores the degree
unchecked and delegates the base to the external `Group.__init__`, which per
the construction contract rejects a base that is not a valid ring with a
type error.  Nothing validates the degree. -/
def groupInit (d : ℤ) (ra : RingArg) : Except SageError GroupKey :=
  match ra with
  | RingArg.ring r => Except.ok ⟨d, r⟩
  | _ => Except.error (SageError.typeError "base must be a ring")

/-- Modelled from the spec: the external `UniqueRepresentation` cache interns
instances by the normalized key, so an affine group instance is identified
with its canonical `GroupKey`; equality of keys models the reference
equality of interned instances.  Construction normalizes via `__classcall__`
and then builds (or fetches) the instance for the resulting key. -/
def affineGroupConstruct (a : AffArg) (var : String) :
    Except SageError GroupKey :=
  match classcall a var with
  | Except.ok p => groupInit p.1 p.2
  | Except.error e => Except.error e

/-! ### Class pickling demonstration (`sage/misc/test_class_pickling.py`) -/

/-- A dynamically created Python class object: its object identity `oid`,
its metaclass name `tp` (the value of `type(c)`), its class name, its list
of base classes (referred to by name: the module-level classes `alpha` and
`bar` keep their identity across pickling), and the stored
`reduce_args = (name, bases)`. -/
structure PyClass where
  oid : ℕ
  tp : String
  name : String
  bases : List String
  deriving DecidableEq, Repr

/-- `metaclass(name, bases)`: creates a fresh class of metaclass `Metaclass`
and stores `reduce_args = (name, bases)` on it.  Object creation is modelled
with an allocation counter supplying the fresh object identity. -/
def metaclass (ctr : ℕ) (name : String) (bases : List String) :
    PyClass × ℕ :=
  (⟨ctr, "Metaclass", name, bases⟩, ctr + 1)

/-- The `reduce_args` attribute stored by `metaclass`. -/
def reduceArgs (c : PyClass) : String × List String := (c.name, c.bases)

/-- `Metaclass.__eq__`: `type(self) is type(other)` and the `reduce_args`
coincide. -/
def metaEq (c d : PyClass) : Bool :=
  c.tp == d.tp && decide (reduceArgs c = reduceArgs d)

/-- `Metaclass.__reduce__` returns the pair
`(metaclass, self.reduce_args)`; modelled from the spec, the external pickle
machinery reconstructs by applying that function to those arguments, with a
fresh allocation counter at load time. -/
def pickleRoundTrip (c : PyClass) (ctr : ℕ) : PyClass × ℕ :=
  metaclass ctr (reduceArgs c).1 (reduceArgs c).2

/-! ### Helper lemmas -/

lemma linear_eq_ok (A : Matrix (Fin n) (Fin n) F) (h : A.det ≠ 0) :
    linear A = Except.ok ⟨A, 0⟩ := by
  unfold linear elementClassChecked elementConstructorCheck
  rw [if_pos h]

lemma linear_eq_error (A : Matrix (Fin n) (Fin n) F) (h : A.det = 0) :
    linear A = Except.error (SageError.typeError "A must be invertible") := by
  unfold linear elementClassChecked elementConstructorCheck
  rw [if_neg (not_not_intro h)]

lemma linear_ok_inv (A : Matrix (Fin n) (Fin n) F)
    (g : AffineGroupElement n F) (h : linear A = Except.ok g) :
    A.det ≠ 0 ∧ g = ⟨A, 0⟩ := by
  by_cases hd : A.det = 0
  · rw [linear_eq_error A hd] at h
    exact Except.noConfusion h
  · rw [linear_eq_ok A hd] at h
    injection h with h2
    exact ⟨hd, h2.symm⟩

lemma vecMulVec_mul_vecMulVec (u v w x : Fin n → F) :
    Matrix.vecMulVec u v * Matrix.vecMulVec w x
      = (∑ k, v k * w k) • Matrix.vecMulVec u x := by
  ext i j
  simp only [Matrix.mul_apply, Matrix.vecMulVec_apply, Matrix.smul_apply,
    smul_eq_mul]
  rw [Finset.sum_mul]
  exact Finset.sum_congr rfl fun k _ => by ring

lemma householder_mul_self (v : Fin n → F) (hq : (∑ i, v i ^ 2) ≠ 0) :
    householder v * householder v = 1 := by
  have hs : (∑ k, v k * (2 / ∑ i, v i ^ 2) * v k) = 2 := by
    have h1 : (∑ k, v k * (2 / ∑ i, v i ^ 2) * v k)
        = (2 / ∑ i, v i ^ 2) * ∑ k, v k ^ 2 := by
      rw [Finset.mul_sum]
      exact Finset.sum_congr rfl fun k _ => by ring
    rw [h1, div_mul_cancel₀ 2 hq]
  unfold householder
  rw [sub_mul, mul_sub, mul_sub, one_mul, one_mul, mul_one,
    vecMulVec_mul_vecMulVec v (fun j => v j * (2 / ∑ i, v i ^ 2)) v
      (fun j => v j * (2 / ∑ i, v i ^ 2)),
    show (∑ k, (fun j => v j * (2 / ∑ i, v i ^ 2)) k * v k) = 2 from hs,
    two_smul]
  abel

lemma householder_det_ne_zero (v : Fin n → F)
    (hq : (∑ i, v i ^ 2) ≠ 0) : (householder v).det ≠ 0 := by
  have h2 : (householder v).det * (householder v).det = 1 := by
    rw [← Matrix.det_mul, householder_mul_self v hq, Matrix.det_one]
  intro h0
  rw [h0, mul_zero] at h2
  exact zero_ne_one h2

lemma reflection_eq_error (v : Fin n → F) (hq : (∑ i, v i ^ 2) = 0) :
    reflection v = Except.error (SageError.valueError "v has norm zero") := by
  unfold reflection
  rw [if_pos hq]

lemma reflection_eq_ok (v : Fin n → F) (hq : (∑ i, v i ^ 2) ≠ 0) :
    reflection v = Except.ok ⟨householder v, 0⟩ := by
  unfold reflection elementClassChecked elementConstructorCheck
  rw [if_neg hq, if_pos (householder_det_ne_zero v hq)]

lemma reflection_ok_inv (v : Fin n → F) (g : AffineGroupElement n F)
    (h : reflection v = Except.ok g) :
    (∑ i, v i ^ 2) ≠ 0 ∧ g = ⟨householder v, 0⟩ := by
  by_cases hq : (∑ i, v i ^ 2) = 0
  · rw [reflection_eq_error v hq] at h
    exact Except.noConfusion h
  · rw [reflection_eq_ok v hq] at h
    injection h with h2
    exact ⟨hq, h2.symm⟩

lemma reflection_error_iff (v : Fin n → F) :
    reflection v = Except.error (SageError.valueError "v has norm zero")
      ↔ (∑ i, v i ^ 2) = 0 := by
  constructor
  · intro h
    by_contra hq
    rw [reflection_eq_ok v hq] at h
    exact Except.noConfusion h
  · exact reflection_eq_error v

/-! ### Claim theorems -/

/-- Claim C1: every element produced by a public element constructor
(`linear`, `reflection`, `random_element`, and `_an_element_`) has an
invertible linear part `A`. -/
theorem produced_elements_invertible :
    (∀ (A : Matrix (Fin n) (Fin n) F) (g : AffineGroupElement n F),
      linear A = Except.ok g → g.A.det ≠ 0) ∧
    (∀ (v : Fin n → F) (g : AffineGroupElement n F),
      reflection v = Except.ok g → g.A.det ≠ 0) ∧
    (∀ (coins : ℕ → Matrix (Fin n) (Fin n) F) (bcoin : Fin n → F)
      (h : ∃ k, (coins k).det ≠ 0),
      (randomElement coins bcoin h).A.det ≠ 0) ∧
    (∀ (a0 : Matrix (Fin n) (Fin n) F)
      (coins : ℕ → Matrix (Fin n) (Fin n) F) (bv : Fin n → F)
      (h : ∃ k, (candidates a0 coins k).det ≠ 0),
      (anElement a0 coins bv h).A.det ≠ 0) := by
  refine ⟨?_, ?_, ?_, ?_⟩
  · intro A g h
    obtain ⟨hd, rfl⟩ := linear_ok_inv A g h
    exact hd
  · intro v g h
    obtain ⟨hq, rfl⟩ := reflection_ok_inv v g h
    exact householder_det_ne_zero v hq
  · intro coins bcoin h
    exact Nat.find_spec h
  · intro a0 coins bv h
    exact Nat.find_spec h

/-- Witness for C1 at degree 1 over `GF(5)`: the four constructors applied
to concrete data. -/
theorem produced_elements_invertible_witness :
    ((⟨(1 : Matrix (Fin 1) (Fin 1) (ZMod 5)), 0⟩ :
        AffineGroupElement 1 (ZMod 5)).A.det ≠ 0) ∧
    ((⟨householder (![1] : Fin 1 → ZMod 5), 0⟩ :
        AffineGroupElement 1 (ZMod 5)).A.det ≠ 0) ∧
    ((randomElement (fun _ => (1 : Matrix (Fin 1) (Fin 1) (ZMod 5)))
        (0 : Fin 1 → ZMod 5) ⟨0, by decide⟩).A.det ≠ 0) ∧
    ((anElement (0 : Matrix (Fin 1) (Fin 1) (ZMod 5)) (fun _ => 1)
        (0 : Fin 1 → ZMod 5) ⟨1, by decide⟩).A.det ≠ 0) :=
  ⟨produced_elements_invertible.1 1 ⟨1, 0⟩ (linear_eq_ok 1 (by decide)),
   produced_elements_invertible.2.1 ![1] ⟨householder ![1], 0⟩
     (reflection_eq_ok ![1] (by decide)),
   produced_elements_invertible.2.2.1 (fun _ => 1) 0 ⟨0, by decide⟩,
   produced_elements_invertible.2.2.2 0 (fun _ => 1) 0 ⟨1, by decide⟩⟩

/-- Claim C2: construction calls whose arguments normalize to equal
parameters return the identical interned instance (instances are interned
by their normalized key, so key equality is instance identity), and two
instances coincide exactly when their `(degree, ring)` pairs do — at most
one instance per pair. -/
theorem unique_representation_of_normalized_args :
    (∀ (a1 a2 : AffArg) (v1 v2 : String),
      classcall a1 v1 = classcall a2 v2 →
        affineGroupConstruct a1 v1 = affineGroupConstruct a2 v2) ∧
    (∀ (k1 k2 : GroupKey),
      k1 = k2 ↔ k1.degree = k2.degree ∧ k1.ring = k2.ring) := by
  constructor
  · intro a1 a2 v1 v2 h
    unfold affineGroupConstruct
    rw [h]
  · intro k1 k2
    cases k1
    cases k2
    simp

/-- Witness for C2: `AffineGroup(AffineSpace(2, GF(4,'a')))` and
`AffineGroup(2, 4)` are the same instance. -/
theorem unique_representation_witness :
    affineGroupConstruct (AffArg.affineSpace 2 (SageRing.GFq 4 "a")) "a"
      = affineGroupConstruct (AffArg.pair 2 (RingArg.int 4)) "a" :=
  unique_representation_of_normalized_args.1
    (AffArg.affineSpace 2 (SageRing.GFq 4 "a"))
    (AffArg.pair 2 (RingArg.int 4)) "a" "a" (by decide)

/-- Claim C3: for every vector of nonzero squared norm (i.e. whenever
`reflection` succeeds), the reflection is an involution:
`reflection(v) * reflection(v)` is the identity element. -/
theorem reflection_involution (v : Fin n → F) (g : AffineGroupElement n F)
    (h : reflection v = Except.ok g) : mulElem g g = oneElem := by
  obtain ⟨hq, rfl⟩ := reflection_ok_inv v g h
  unfold mulElem oneElem
  rw [householder_mul_self v hq, Matrix.mulVec_zero, add_zero]

/-- Witness for C3 at `v = (1)` over `GF(5)`. -/
theorem reflection_involution_witness :
    mulElem (⟨householder (![1] : Fin 1 → ZMod 5), 0⟩ :
        AffineGroupElement 1 (ZMod 5))
      ⟨householder ![1], 0⟩ = oneElem :=
  reflection_involution ![1] ⟨householder ![1], 0⟩
    (reflection_eq_ok ![1] (by decide))

/-- Claim C4: `translation(b1) * translation(b2) = translation(b1 + b2)` —
translation is a homomorphism from the vector space into the group. -/
theorem translation_mul_translation (b1 b2 : Fin n → F) :
    mulElem (translation b1) (translation b2) = translation (b1 + b2) := by
  unfold mulElem translation
  rw [mul_one, Matrix.one_mulVec, add_comm]

/-- Claim C5: a successful `reflection(v)` returns the element whose linear
part is the Householder matrix `I − 2·(v·vᵗ)/(v·v)` and whose translation
part is the zero vector. -/
theorem reflection_householder_form (v : Fin n → F)
    (g : AffineGroupElement n F) (h : reflection v = Except.ok g) :
    g.A = householderSpec v ∧ g.b = 0 := by
  obtain ⟨hq, rfl⟩ := reflection_ok_inv v g h
  refine ⟨?_, rfl⟩
  have hd : Matrix.dotProduct v v = ∑ i, v i ^ 2 := by
    simp [Matrix.dotProduct, pow_two]
  unfold householder householderSpec
  rw [hd]
  ext i j
  simp only [Matrix.sub_apply, Matrix.smul_apply, Matrix.vecMulVec_apply,
    smul_eq_mul]
  ring

/-- Witness for C5 at `v = (1)` over `GF(5)`. -/
theorem reflection_householder_form_witness :
    householder (![1] : Fin 1 → ZMod 5) = householderSpec ![1] ∧
      (0 : Fin 1 → ZMod 5) = 0 :=
  reflection_householder_form ![1] ⟨householder ![1], 0⟩
    (reflection_eq_ok ![1] (by decide))

/-- Claim C6: `linear(A)` returns `x ↦ A·x` with zero translation part when
`A` is invertible, and fails with a `TypeError` when `A` is singular. -/
theorem linear_spec (A : Matrix (Fin n) (Fin n) F) :
    (A.det ≠ 0 → linear A = Except.ok ⟨A, 0⟩) ∧
    (A.det = 0 →
      linear A = Except.error (SageError.typeError "A must be invertible")) :=
  ⟨linear_eq_ok A, linear_eq_error A⟩

/-- Witness for C6 over `GF(5)`: the identity matrix is accepted, the zero
matrix is rejected. -/
theorem linear_spec_witness :
    linear (1 : Matrix (Fin 1) (Fin 1) (ZMod 5)) = Except.ok ⟨1, 0⟩ ∧
    linear (0 : Matrix (Fin 1) (Fin 1) (ZMod 5)) =
      Except.error (SageError.typeError "A must be invertible") :=
  ⟨(linear_spec 1).1 (by decide), (linear_spec 0).2 (by decide)⟩

/-- Claim C7: `reflection` of the zero vector fails with
`ValueError('v has norm zero')`; no element is constructed. -/
theorem reflection_zero_vector :
    reflection (0 : Fin n → F)
      = Except.error (SageError.valueError "v has norm zero") :=
  reflection_eq_error 0 (by simp)

/-- Claim C9: the zero-norm `ValueError` can fire on nonzero vectors — over
`GF(2)` the vector `(1,1)` is nonzero yet triggers it — and in general the
error fires exactly when the sum of squares of the entries vanishes. -/
theorem reflection_zero_norm_nonzero_vector :
    ((![1, 1] : Fin 2 → ZMod 2) ≠ 0 ∧
      reflection (![1, 1] : Fin 2 → ZMod 2)
        = Except.error (SageError.valueError "v has norm zero")) ∧
    (∀ (v : Fin n → F),
      reflection v = Except.error (SageError.valueError "v has norm zero")
        ↔ (∑ i, v i ^ 2) = 0) :=
  ⟨⟨by decide, by decide⟩, fun v => reflection_error_iff v⟩

/-- Witness for C9 at the nonzero vector `(3,4)` over `GF(5)`, whose sum of
squares is `25 = 0`. -/
theorem reflection_zero_norm_witness :
    reflection (![3, 4] : Fin 2 → ZMod 5)
      = Except.error (SageError.valueError "v has norm zero") :=
  (reflection_zero_norm_nonzero_vector.2 ![3, 4]).mpr (by decide)

/-- Counterexample to C8 as stated: construction with degree `-1` succeeds —
the degree argument is stored without any validation, so construction does
not fail for a degree that is not a non-negative integer. -/
theorem construction_accepts_negative_degree :
    affineGroupConstruct (AffArg.pair (-1) (RingArg.ring SageRing.QQ)) "a"
      = Except.ok ⟨-1, SageRing.QQ⟩ := rfl

/-- Claim C8 as amended: construction fails with a validation error when the
ring argument is not a valid ring (type error) or not a prime power (value
error), but the degree argument is never validated: any integer degree,
including negative ones, is accepted whenever the ring is valid. -/
theorem construction_contract_checks :
    (∀ (d q : ℤ) (var : String), ¬(0 < q ∧ IsPrimePow q.toNat) →
      affineGroupConstruct (AffArg.pair d (RingArg.int q)) var
        = Except.error (SageError.valueError
            "the order of a finite field must be a prime power")) ∧
    (∀ (d : ℤ) (t var : String),
      affineGroupConstruct (AffArg.pair d (RingArg.other t)) var
        = Except.error (SageError.typeError "base must be a ring")) ∧
    (∀ (d : ℤ) (r : SageRing) (var : String),
      affineGroupConstruct (AffArg.pair d (RingArg.ring r)) var
        = Except.ok ⟨d, r⟩) := by
  refine ⟨?_, fun d t var => rfl, fun d r var => rfl⟩
  intro d q var h
  have hf : finiteField q var = Except.error (SageError.valueError
      "the order of a finite field must be a prime power") := by
    unfold finiteField
    rw [if_neg h]
  simp only [affineGroupConstruct, classcall, hf]

/-- Witness for the amended C8: order 6 is not a prime power and is
rejected. -/
theorem construction_contract_checks_witness :
    affineGroupConstruct (AffArg.pair 2 (RingArg.int 6)) "a"
      = Except.error (SageError.valueError
          "the order of a finite field must be a prime power") :=
  construction_contract_checks.1 2 6 "a" (by decide)

/-- Claim C10: the pickling round trip of a class created by `metaclass`
reconstructs it by applying `metaclass` to the stored `reduce_args`; the
reconstruction compares equal under `Metaclass.__eq__` (same metaclass,
equal `reduce_args`) while being a distinct object. -/
theorem pickle_round_trip_eq (ctr1 ctr2 : ℕ) (nm : String)
    (bases : List String) (h : ctr2 ≠ ctr1) :
    metaEq (metaclass ctr1 nm bases).1
        (pickleRoundTrip (metaclass ctr1 nm bases).1 ctr2).1 = true ∧
    (pickleRoundTrip (metaclass ctr1 nm bases).1 ctr2).1
        ≠ (metaclass ctr1 nm bases).1 := by
  constructor
  · simp [metaEq, metaclass, pickleRoundTrip, reduceArgs]
  · intro he
    exact h (congrArg PyClass.oid he)

/-- Witness for C10: the doctest scenario `metaclass("foo", (alpha, bar))`
followed by a pickle round trip. -/
theorem pickle_round_trip_eq_witness :
    metaEq (metaclass 0 "foo" ["alpha", "bar"]).1
        (pickleRoundTrip (metaclass 0 "foo" ["alpha", "bar"]).1 1).1 = true ∧
    (pickleRoundTrip (metaclass 0 "foo" ["alpha", "bar"]).1 1).1
        ≠ (metaclass 0 "foo" ["alpha", "bar"]).1 :=
  pickle_round_trip_eq 0 1 "foo" ["alpha", "bar"] (by decide)

end AffineGps
